import Mathlib

/-!
Verification of the RAG-powered AI assistant core: a shallow embedding of
`rag_core/core/rag_pipeline.py`, `rag_core/config/settings.py`,
`lambda_function/app.py`, `rag_core/implementations/llms/bedrock_llm.py`
and `scripts/build_index.py`, together with theorems settling the stated
properties of the pipeline, the request handler, the generation provider
and the index builder.

External providers (embedding model, vector store, generative model) are
modelled as oracles: functions returning `Except String _`, where
`.error msg` models the provider raising an exception with message `msg`.
Numeric payloads the code never computes with (embedding vectors, scores)
are abstract type parameters `V` and `S`.
-/

/-! ### Configuration (`rag_core/config/settings.py`) -/

/-- `Settings.COUNTRIES` in `settings.py`: the fixed supported-country set. -/
def settingsCOUNTRIES : List String := ["spain", "poland", "colombia", "italy", "georgia"]

/-- `Settings.TOP_K_RESULTS` default (env default string is 5). -/
def settingsTOP_K_RESULTS : Nat := 5

/-! ### Python string helpers used by the pipeline -/

/-- One step of Python `str.title()`: a cased character is uppercased when the
previous character was not alphabetic and lowercased otherwise. -/
def pyTitleGo : Bool → List Char → List Char
  | _, [] => []
  | prevAlpha, ch :: cs =>
      (if ch.isAlpha then (if prevAlpha then ch.toLower else ch.toUpper) else ch)
        :: pyTitleGo ch.isAlpha cs

/-- Python `str.title()` (ASCII fragment), used by the no-match answer template. -/
def pyTitle (s : String) : String := ⟨pyTitleGo false s.data⟩

/-- Python `str.lower()` (character-wise lowering, ASCII fragment), used by
country validation. -/
def pyLower (s : String) : String := ⟨s.data.map Char.toLower⟩

/-! ### Data model of the query pipeline (`rag_core/core/rag_pipeline.py`) -/

/-- The metadata dictionary stored on each vector-store match, as the pipeline
reads it: `text`, `source_file` (always present in records written by the
index builder) and `page` (read with a fallback, hence optional). -/
structure MetaR where
  text : String
  source_file : String
  page : Option Nat
deriving DecidableEq

/-- A similarity-search match `{id, score, metadata}` returned by
`VectorStore.search`. The score type `S` is abstract to the pipeline. -/
structure MatchR (S : Type) where
  id : String
  score : S
  metadata : MetaR
deriving DecidableEq

/-- One entry of the `sources` list built in step 3 of `RAGPipeline.query`:
`{file, score, page}`, where `page := metadata.get(page, N/A)` is `none`
when the metadata has no page. -/
structure SourceEntry (S : Type) where
  file : String
  score : S
  page : Option Nat
deriving DecidableEq

/-- The record returned by `generate_with_context`:
`{answer, context_used, model}`. -/
structure GenResult where
  answer : String
  context_used : Nat
  model : String
deriving DecidableEq

/-- The four dictionary shapes `RAGPipeline.query` can return, one constructor
per `return` statement, carrying exactly the keys the source dict carries. -/
inductive QueryResult (S : Type) where
  | invalidCountry (error : String) (supported_countries : List String)
  | noMatches (answer : String) (country : String) (sources : List (SourceEntry S))
  | success (answer : String) (country : String) (sources : List (SourceEntry S))
      (chunks_used : Nat) (model : String)
  | pipelineError (error : String) (country : String)
deriving DecidableEq

/-- Raw statistics returned by `VectorStore.get_stats`. -/
structure RawStats where
  total_vector_count : Nat
  namespaces : List (String × Nat)
deriving DecidableEq

/-- The two dictionary shapes `RAGPipeline.get_index_stats` can return. -/
inductive StatsResult where
  | ok (total_vectors : Nat) (namespaces : List (String × Nat)) (countries : List String)
  | err (error : String)
deriving DecidableEq

/-- The provider bundle held by a `RAGPipeline` instance. Each field models
one provider method as an oracle; `.error msg` models a raised exception. -/
structure Providers (V S : Type) where
  embedQuery : String → Except String V
  search : V → String → Nat → Except String (List (MatchR S))
  generateWithContext : String → List String → Rat → Except String GenResult
  getStats : Except String RawStats

/-- Provider calls issued by one `query` invocation, in order. -/
inductive CallEvent where
  | embed (question : String)
  | search (ns : String) (topK : Nat)
  | generate (question : String) (chunks : List String)
deriving DecidableEq

/-- The error message of the invalid-country result in `RAGPipeline.query`. -/
def invalidCountryMsg : String :=
  "Invalid country. Supported: " ++ String.intercalate (", ") settingsCOUNTRIES

/-- `top_k = top_k or settings.TOP_K_RESULTS` in `RAGPipeline.query`:
Python `or` replaces both `None` and the falsy int `0` with the default. -/
def effTopK : Option Nat → Nat
  | none => settingsTOP_K_RESULTS
  | some n => if n = 0 then settingsTOP_K_RESULTS else n

/-- `RAGPipeline.query`, instrumented with the list of provider calls made.
Mirrors the source line by line: country validation, lower-casing, `top_k`
defaulting, embed, search, the zero-match short-circuit, context and source
assembly, generation at temperature 0.3, response formatting, and the
`except Exception` conversion to `{error, country}`. -/
def queryT {V S : Type} (P : Providers V S) (country question : String)
    (top_k : Option Nat) : QueryResult S × List CallEvent :=
  if (pyLower country) ∈ settingsCOUNTRIES then
    let c := (pyLower country)
    let k := effTopK top_k
    match P.embedQuery question with
    | .error e => (.pipelineError ("Error processing query: " ++ e) c, [.embed question])
    | .ok qv =>
      match P.search qv c k with
      | .error e =>
          (.pipelineError ("Error processing query: " ++ e) c,
           [.embed question, .search c k])
      | .ok ms =>
        if ms.isEmpty then
          (.noMatches ("No relevant information found in " ++ pyTitle c ++ " knowledge base.")
             c [],
           [.embed question, .search c k])
        else
          let context_chunks := ms.map (fun m => m.metadata.text)
          let sources := ms.map (fun m =>
            SourceEntry.mk m.metadata.source_file m.score m.metadata.page)
          match P.generateWithContext question context_chunks ((3 : Rat)/10) with
          | .error e =>
              (.pipelineError ("Error processing query: " ++ e) c,
               [.embed question, .search c k, .generate question context_chunks])
          | .ok r =>
              (.success r.answer c sources context_chunks.length r.model,
               [.embed question, .search c k, .generate question context_chunks])
  else
    (.invalidCountry invalidCountryMsg settingsCOUNTRIES, [])

/-- `RAGPipeline.query`: the returned dictionary. -/
def query {V S : Type} (P : Providers V S) (country question : String)
    (top_k : Option Nat) : QueryResult S :=
  (queryT P country question top_k).1

/-- `RAGPipeline.get_index_stats`. -/
def get_index_stats {V S : Type} (P : Providers V S) : StatsResult :=
  match P.getStats with
  | .ok s => .ok s.total_vector_count s.namespaces settingsCOUNTRIES
  | .error e => .err ("Error fetching stats: " ++ e)

/-! ### Shape observations on `QueryResult` (dictionary-key presence) -/

/-- A result dict is an error shape when it carries an `error` key. -/
def QueryResult.isError {S : Type} : QueryResult S → Bool
  | .invalidCountry _ _ => true
  | .pipelineError _ _ => true
  | _ => false

/-- The `answer` key, when present. -/
def QueryResult.answerField {S : Type} : QueryResult S → Option String
  | .noMatches a _ _ => some a
  | .success a _ _ _ _ => some a
  | _ => none

/-- The `country` key, when present. -/
def QueryResult.countryField {S : Type} : QueryResult S → Option String
  | .noMatches _ c _ => some c
  | .success _ c _ _ _ => some c
  | .pipelineError _ c => some c
  | .invalidCountry _ _ => none

/-- The `sources` key, when present. -/
def QueryResult.sourcesField {S : Type} : QueryResult S → Option (List (SourceEntry S))
  | .noMatches _ _ s => some s
  | .success _ _ s _ _ => some s
  | _ => none

/-- The `chunks_used` key, when present. -/
def QueryResult.chunksUsedField {S : Type} : QueryResult S → Option Nat
  | .success _ _ _ k _ => some k
  | _ => none

/-- The `model` key, when present. -/
def QueryResult.modelField {S : Type} : QueryResult S → Option String
  | .success _ _ _ _ m => some m
  | _ => none

/-- Whether the result is the zero-match short-circuit shape. -/
def QueryResult.isNoMatch {S : Type} : QueryResult S → Bool
  | .noMatches _ _ _ => true
  | _ => false

/-- A result carries the full `{answer, country, sources, chunks_used, model}`
shape when all five keys are present. -/
def hasFullQueryShape {S : Type} (r : QueryResult S) : Bool :=
  r.answerField.isSome && r.countryField.isSome && r.sourcesField.isSome &&
    r.chunksUsedField.isSome && r.modelField.isSome

/-! ### Lambda handler (`lambda_function/app.py`) -/

/-- The parsed request body: each key read with `body.get`, hence optional. -/
structure LambdaEvent where
  action : Option String
  country : Option String
  question : Option String
  top_k : Option Nat

/-- The body shapes `lambda_handler` can serialize, one per `return`. -/
inductive LambdaBody (S : Type) where
  | missingFields
  | unknownAction (action : String)
  | queryResult (r : QueryResult S)
  | countriesList (countries : List String)
  | statsBody (s : StatsResult)
deriving DecidableEq

/-- Python falsiness of `body.get(key)` for string fields:
`None` and the empty string are falsy. -/
def pyFalsy (s : Option String) : Bool := s.getD ("") = ""

/-- `lambda_handler`: action dispatch, the missing-field and unknown-action
400 branches, and the unconditional 200 wrapping of every pipeline result.
Returns `(statusCode, body)`. -/
def lambda_handler {V S : Type} (P : Providers V S) (ev : LambdaEvent) :
    Nat × LambdaBody S :=
  let action := ev.action.getD ("query")
  if action = "stats" then
    (200, .statsBody (get_index_stats P))
  else if action = "list_countries" then
    (200, .countriesList settingsCOUNTRIES)
  else if action = "query" then
    if pyFalsy ev.country || pyFalsy ev.question then
      (400, .missingFields)
    else
      (200, .queryResult
        (query P (ev.country.getD ("")) (ev.question.getD ("")) (some (ev.top_k.getD 5))))
  else
    (400, .unknownAction action)

/-! ### Generative provider (`rag_core/implementations/llms/bedrock_llm.py`) -/

/-- An apostrophe character, spelled via its code point. -/
def apos : String := String.singleton (Char.ofNat 39)

/-- The default grounding system prompt hard-coded in
`BedrockLLM.generate_with_context`. -/
def defaultSystemPrompt : String :=
  "You are a helpful assistant that answers questions about employment " ++
  "regulations and hiring policies. Use ONLY the provided context to " ++
  "answer questions. If the context doesn" ++ apos ++ "t contain the answer, say so."

/-- `context_str` in `generate_with_context`: the chunks joined by blank lines,
each preceded by its 1-based `[Document i]` label (Python `enumerate`). -/
def contextStr (context_chunks : List String) : String :=
  String.intercalate ("\n\n")
    ((context_chunks.enum).map (fun p =>
      "[Document " ++ Nat.repr (p.1 + 1) ++ "]\n" ++ p.2))

/-- The user prompt assembled by `generate_with_context`. -/
def userPromptFor (question : String) (context_chunks : List String) : String :=
  "Context information:\n\n" ++ contextStr context_chunks ++
  "\n\nQuestion: " ++ question ++
  "\n\nAnswer based on the context provided above. If the information is " ++
  "not in the context, clearly state that."

/-- A `BedrockLLM` instance: its configured model id and the remote
`invoke_model` call as an oracle from (system prompt, user prompt,
temperature) to the returned text. -/
structure BedrockLLM where
  model_id : String
  invoke : String → String → Rat → String

/-- `BedrockLLM.generate_with_context`: substitutes the default system prompt
when none is supplied, builds the single labeled-documents prompt, calls the
model, and returns `{answer, context_used, model}`. -/
def BedrockLLM.generate_with_context (llm : BedrockLLM) (question : String)
    (context_chunks : List String) (system_prompt : Option String)
    (temperature : Rat) : GenResult :=
  let sys := match system_prompt with
    | none => defaultSystemPrompt
    | some s => s
  { answer := llm.invoke sys (userPromptFor question context_chunks) temperature
    context_used := context_chunks.length
    model := llm.model_id }

/-- Modelled from the spec wording for comparison with `contextStr`: the
chunks "as enumerated, labeled documents", first labeled `[Document 1]`,
each next one labeled with the next index. -/
def specDocsFrom (i : Nat) : List String → List String
  | [] => []
  | c :: cs => ("[Document " ++ Nat.repr (i + 1) ++ "]\n" ++ c) :: specDocsFrom (i + 1) cs

/-! ### Index builder (`scripts/build_index.py`) -/

/-- Observable events of one `IndexBuilder.run`, in execution order.
`countryStart`/`countryDone` mark entry to and normal return from
`process_country`; `sleep` is a deliberate blocking delay (seconds);
`fetchStats` is the single `describe_index_stats` call of
`verify_indexing`; `warnMissing`/`allIndexed` its outcome report;
`reportElapsed` the final elapsed-time print. -/
inductive BuildEvent where
  | countryStart (c : String)
  | upsertBatch (ns : String) (count : Nat)
  | sleep (seconds : Rat)
  | countryError (c : String) (msg : String)
  | countryDone (c : String)
  | fetchStats
  | warnMissing (missing : List String)
  | allIndexed
  | reportElapsed
deriving DecidableEq

/-- Whether an event is the stats fetch. -/
def isFetchStats : BuildEvent → Bool
  | .fetchStats => true
  | _ => false

/-- Whether an event is a blocking delay. -/
def isSleepEvent : BuildEvent → Bool
  | .sleep _ => true
  | _ => false

/-- One `try: process_country(c) except: log; continue` iteration of the
loop in `IndexBuilder.run`. The oracle `proc` gives the events emitted
inside `process_country` and, optionally, the message of an exception it
raises; the exception is caught and logged as `countryError`. -/
def processOne (proc : String → List BuildEvent × Option String) (c : String) :
    List BuildEvent :=
  .countryStart c :: (proc c).1 ++
    (match (proc c).2 with
     | none => [.countryDone c]
     | some e => [.countryError c e])

/-- The `for country in COUNTRIES` loop of `IndexBuilder.run`. -/
def loopTrace (proc : String → List BuildEvent × Option String) :
    List String → List BuildEvent
  | [] => []
  | c :: cs => processOne proc c ++ loopTrace proc cs

/-- `set(COUNTRIES) - set(stats.namespaces.keys())` in `verify_indexing`,
as the sublist of expected countries absent from the populated namespaces. -/
def missingNamespaces (namespaces : List String) : List String :=
  settingsCOUNTRIES.filter (fun c => !(namespaces.contains c))

/-- `IndexBuilder.verify_indexing`: fetch stats once, then report either the
missing namespaces (a warning) or full coverage. -/
def verifyEvents (namespaces : List String) : List BuildEvent :=
  .fetchStats ::
    (if (missingNamespaces namespaces).isEmpty then [.allIndexed]
     else [.warnMissing (missingNamespaces namespaces)])

namespace IndexBuilder

/-- `IndexBuilder.run`: the per-country loop, then `verify_indexing`
immediately, then the elapsed-time report. `namespaces` is the set of
populated namespaces the stats call will observe. -/
def run (proc : String → List BuildEvent × Option String)
    (namespaces : List String) (countries : List String) : List BuildEvent :=
  loopTrace proc countries ++ verifyEvents namespaces ++ [.reportElapsed]

end IndexBuilder

/-- Whether the event immediately preceding the stats fetch is a blocking
delay, i.e. whether the builder waits a settling interval right before
fetching store-wide stats. -/
def settlingWaitBeforeStats (tr : List BuildEvent) : Bool :=
  match (tr.takeWhile (fun e => !(isFetchStats e))).getLast? with
  | some e => isSleepEvent e
  | none => false

/-! ### Chunk upsert (`IndexBuilder.upsert_chunks`) -/

/-- A document chunk as `upsert_chunks` receives it: its text and the
metadata attached in `process_country` (`page` comes from the PDF loader
and is read with a `get(..., 0)` fallback). -/
structure Chunk where
  page_content : String
  country : String
  source_file : String
  page : Option Nat
deriving DecidableEq

/-- Metadata of a persisted vector record, as built in `upsert_chunks`. -/
structure VecMeta where
  text : String
  country : String
  source_file : String
  page : Nat
deriving DecidableEq

/-- A vector record `{id, values, metadata}` sent to the store. -/
structure VectorRecord (V : Type) where
  id : String
  values : V
  metadata : VecMeta
deriving DecidableEq

/-- The record built for the chunk at global offset `n`:
`id = f"{namespace}_{i+idx}"`, the embedded text as values, and the
metadata dict of `upsert_chunks`. -/
def mkVec {V : Type} (embed : String → V) (ns : String) (n : Nat) (c : Chunk) :
    VectorRecord V :=
  { id := ns ++ "_" ++ Nat.repr n
    values := embed c.page_content
    metadata :=
      { text := c.page_content
        country := c.country
        source_file := c.source_file
        page := c.page.getD 0 } }

/-- The batches of `upsert_chunks`: `for i in range(0, len(chunks), 100)`
takes 100 chunks at a time, enumerates each batch locally, and ids use the
global offset `i + idx`. Each element is one `index.upsert` payload. -/
def processBatches {V : Type} (embed : String → V) (ns : String) :
    Nat → List Chunk → List (List (VectorRecord V))
  | _, [] => []
  | i, c :: cs =>
      (((c :: cs).take 100).enum).map (fun p => mkVec embed ns (i + p.1) p.2) ::
        processBatches embed ns (i + 100) ((c :: cs).drop 100)
termination_by _ cs => cs.length + 1
decreasing_by simp only [List.drop, List.length_drop, List.length_cons]; omega

/-- All vectors `upsert_chunks` sends for one namespace, across batches. -/
def upsertChunksVectors {V : Type} (embed : String → V) (ns : String)
    (chunks : List Chunk) : List (VectorRecord V) :=
  (processBatches embed ns 0 chunks).flatten

/-! ### Decimal representation facts (vector-id uniqueness) -/

/-- Decimal digit characters of `n`, most significant first, matching what
`Nat.toDigitsCore` computes for base 10. -/
def decRepr (n : Nat) : List Char :=
  if _h : n < 10 then [Nat.digitChar n]
  else decRepr (n / 10) ++ [Nat.digitChar (n % 10)]
decreasing_by exact Nat.div_lt_self (by omega) (by omega)

/-- Decimal value of a digit-character list, most significant first. -/
def decVal (l : List Char) : Nat :=
  l.foldl (fun a c => 10 * a + (c.toNat - 48)) 0

theorem digitChar_toNat_sub {d : Nat} (h : d < 10) :
    (Nat.digitChar d).toNat - 48 = d := by
  interval_cases d <;> rfl

theorem decVal_append_digit (l : List Char) (c : Char) :
    decVal (l ++ [c]) = 10 * decVal l + (c.toNat - 48) := by
  simp [decVal, List.foldl_append]

theorem decVal_decRepr (n : Nat) : decVal (decRepr n) = n := by
  induction n using Nat.strong_induction_on with
  | _ n ih =>
    rw [decRepr]
    by_cases h : n < 10
    · rw [dif_pos h]
      show 10 * 0 + ((Nat.digitChar n).toNat - 48) = n
      rw [digitChar_toNat_sub h]
      omega
    · rw [dif_neg h]
      rw [decVal_append_digit, ih (n / 10) (Nat.div_lt_self (by omega) (by omega)),
        digitChar_toNat_sub (Nat.mod_lt n (by omega))]
      omega

theorem toDigitsCore_eq_decRepr :
    ∀ (fuel n : Nat) (acc : List Char), n < fuel →
      Nat.toDigitsCore 10 fuel n acc = decRepr n ++ acc := by
  intro fuel
  induction fuel with
  | zero => intro n acc h; exact absurd h (Nat.not_lt_zero n)
  | succ f ih =>
    intro n acc h
    show (if n / 10 = 0 then Nat.digitChar (n % 10) :: acc
          else Nat.toDigitsCore 10 f (n / 10) (Nat.digitChar (n % 10) :: acc)) =
        decRepr n ++ acc
    by_cases h10 : n / 10 = 0
    · have hn : n < 10 := by omega
      rw [if_pos h10, decRepr, dif_pos hn, Nat.mod_eq_of_lt hn]
      rfl
    · have hn : ¬ n < 10 := by omega
      have hrec : n / 10 < f := by omega
      rw [if_neg h10, ih (n / 10) (Nat.digitChar (n % 10) :: acc) hrec]
      conv_rhs => rw [decRepr]
      rw [dif_neg hn, List.append_assoc]
      rfl

theorem natRepr_eq_decRepr (n : Nat) : Nat.repr n = (decRepr n).asString := by
  show (Nat.toDigitsCore 10 (n + 1) n []).asString = (decRepr n).asString
  rw [toDigitsCore_eq_decRepr (n + 1) n [] (by omega), List.append_nil]

theorem natRepr_injective : Function.Injective Nat.repr := by
  intro a b h
  rw [natRepr_eq_decRepr, natRepr_eq_decRepr] at h
  have hd : decRepr a = decRepr b := congrArg String.data h
  calc a = decVal (decRepr a) := (decVal_decRepr a).symm
    _ = decVal (decRepr b) := by rw [hd]
    _ = b := decVal_decRepr b

/-- Injectivity of the vector-id scheme `f"{namespace}_{n}"` in `n`. -/
theorem vectorId_injective (ns : String) :
    Function.Injective (fun n => ns ++ "_" ++ Nat.repr n) := by
  intro a b h
  apply natRepr_injective
  have hd := congrArg String.data h
  simp only [String.data_append] at hd
  have h1 := List.append_cancel_left hd
  exact String.ext h1

/-- The batched upsert enumerates the chunk list with global offsets: joining
the batches yields one record per chunk, built at its global position. -/
theorem processBatches_flatten {V : Type} (embed : String → V) (ns : String)
    (i : Nat) (cs : List Chunk) :
    (processBatches embed ns i cs).flatten =
      (cs.enumFrom i).map (fun p => mkVec embed ns p.1 p.2) := by
  induction i, cs using processBatches.induct embed ns with
  | case1 i => simp [processBatches]
  | case2 i c cs ih =>
    rw [processBatches, List.flatten_cons, ih]
    conv_rhs => rw [← List.take_append_drop 100 (c :: cs), List.enumFrom_append,
      List.map_append]
    congr 1
    · rw [List.enumFrom_eq_map_enum, List.map_map]
      apply List.map_congr_left
      intro p _
      show mkVec embed ns (i + p.1) p.2 = mkVec embed ns (p.1 + i) p.2
      rw [Nat.add_comm]
    · by_cases hlen : (c :: cs).length ≤ 100
      · rw [List.drop_eq_nil_of_le hlen]
        simp
      · rw [List.length_take, Nat.min_eq_left (by omega)]

/-! ### Claim theorems -/

/-- Claim C8: for every chunk list indexed by `IndexBuilder.upsert_chunks` for
a namespace, the vector id assigned to the chunk at global position `n` is
exactly `"<namespace>_<n>"` (the id list equals the id scheme mapped over
`0, 1, ..., len-1`), and all ids produced for that namespace in one run are
pairwise distinct. -/
theorem upsert_chunks_vector_ids {V : Type} (embed : String → V) (ns : String)
    (chunks : List Chunk) :
    (upsertChunksVectors embed ns chunks).map (fun v => v.id) =
      (List.range chunks.length).map (fun n => ns ++ "_" ++ Nat.repr n) ∧
    ((upsertChunksVectors embed ns chunks).map (fun v => v.id)).Nodup := by
  have hids : (upsertChunksVectors embed ns chunks).map (fun v => v.id) =
      (List.range chunks.length).map (fun n => ns ++ "_" ++ Nat.repr n) := by
    unfold upsertChunksVectors
    rw [processBatches_flatten, List.map_map]
    have hcomp : ((fun v => v.id) ∘ fun p : Nat × Chunk => mkVec embed ns p.1 p.2) =
        (fun n => ns ++ "_" ++ Nat.repr n) ∘ Prod.fst := rfl
    rw [hcomp, ← List.map_map, List.enumFrom_map_fst, List.range_eq_range']
  refine ⟨hids, ?_⟩
  rw [hids]
  exact (List.nodup_range _).map (vectorId_injective ns)

/-- Claim C9: `generate_with_context` builds a single prompt whose context
section lists the chunks in order as `[Document 1]`, `[Document 2]`, ...
(shown equal to the spec-worded enumeration `specDocsFrom 0`), sends the
default grounding system prompt exactly when none is supplied (and the
supplied one otherwise), and returns `context_used` equal to the number of
chunks and `model` equal to the configured model id. -/
theorem generate_with_context_spec (llm : BedrockLLM) (question : String)
    (context_chunks : List String) (temperature : Rat) :
    (llm.generate_with_context question context_chunks none temperature).answer =
        llm.invoke defaultSystemPrompt (userPromptFor question context_chunks) temperature ∧
    (llm.generate_with_context question context_chunks none temperature).context_used =
        context_chunks.length ∧
    (llm.generate_with_context question context_chunks none temperature).model =
        llm.model_id ∧
    contextStr context_chunks = String.intercalate ("\n\n") (specDocsFrom 0 context_chunks) ∧
    (∀ sp, (llm.generate_with_context question context_chunks (some sp) temperature).answer =
        llm.invoke sp (userPromptFor question context_chunks) temperature) := by
  refine ⟨rfl, rfl, rfl, ?_, fun sp => rfl⟩
  unfold contextStr
  congr 1
  have hgen : ∀ (l : List String) (i : Nat),
      (l.enumFrom i).map (fun p => "[Document " ++ Nat.repr (p.1 + 1) ++ "]\n" ++ p.2) =
        specDocsFrom i l := by
    intro l
    induction l with
    | nil => intro i; rfl
    | cons x xs ih => intro i; simp [specDocsFrom, List.enumFrom_cons, ih]
  exact hgen context_chunks 0

/-- A provider bundle whose embedding call raises. -/
def PembedFail : Providers Unit Int :=
  { embedQuery := fun _ => .error ("boom")
    search := fun _ _ _ => .ok []
    generateWithContext := fun _ _ _ => .ok (GenResult.mk ("a") 0 ("m"))
    getStats := .ok (RawStats.mk 0 []) }

/-- A provider bundle whose search always returns zero matches. -/
def Pstub : Providers Unit Int :=
  { embedQuery := fun _ => .ok ()
    search := fun _ _ _ => .ok []
    generateWithContext := fun _ _ _ => .ok (GenResult.mk ("a") 0 ("m"))
    getStats := .ok (RawStats.mk 0 []) }

/-- Claim C1: for every supported country and question, an exception raised
by the embedding provider, the vector store, or the generative provider
during steps 2 to 6 of `RAGPipeline.query` is caught inside `query` and
converted into the `{error: message, country}` result; `query` is a total
function into the result shapes, so no exception propagates. -/
theorem query_catches_provider_exceptions {V S : Type} (P : Providers V S)
    (country question : String) (top_k : Option Nat)
    (hc : (pyLower country) ∈ settingsCOUNTRIES) :
    (∀ e, P.embedQuery question = .error e →
        query P country question top_k =
          .pipelineError ("Error processing query: " ++ e) (pyLower country)) ∧
    (∀ v e, P.embedQuery question = .ok v →
        P.search v (pyLower country) (effTopK top_k) = .error e →
        query P country question top_k =
          .pipelineError ("Error processing query: " ++ e) (pyLower country)) ∧
    (∀ v ms e, P.embedQuery question = .ok v →
        P.search v (pyLower country) (effTopK top_k) = .ok ms →
        ms.isEmpty = false →
        P.generateWithContext question (ms.map (fun m => m.metadata.text))
            ((3 : Rat)/10) = .error e →
        query P country question top_k =
          .pipelineError ("Error processing query: " ++ e) (pyLower country)) := by
  refine ⟨?_, ?_, ?_⟩
  · intro e he
    simp [query, queryT, hc, he]
  · intro v e hv he
    simp [query, queryT, hc, hv, he]
  · intro v ms e hv hs hne hg
    simp [query, queryT, hc, hv, hs, hne, hg]

theorem query_catches_provider_exceptions_witness :
    query PembedFail ("Spain") ("What is the probation period?") none =
      QueryResult.pipelineError ("Error processing query: boom") ("spain") :=
  (query_catches_provider_exceptions PembedFail ("Spain")
      ("What is the probation period?") none (by decide)).1 ("boom") rfl

/-- Claim C2: for every country whose lower-casing is outside the supported
set, `query` returns the structured invalid-country result carrying the
full supported set, and the provider-call trace is empty: the embedding,
search, and generative providers are not invoked, and nothing is raised. -/
theorem query_invalid_country {V S : Type} (P : Providers V S)
    (country question : String) (top_k : Option Nat)
    (hc : (pyLower country) ∉ settingsCOUNTRIES) :
    queryT P country question top_k =
      (.invalidCountry invalidCountryMsg settingsCOUNTRIES, []) := by
  simp [queryT, hc]

theorem query_invalid_country_witness :
    queryT Pstub ("atlantis") ("hi") none =
      (QueryResult.invalidCountry invalidCountryMsg settingsCOUNTRIES, []) :=
  query_invalid_country Pstub ("atlantis") ("hi") none (by decide)

/-- Claim C3: when the vector store returns zero matches, `query` returns
the fixed templated no-relevant-information answer with an empty sources
list, and the generative provider is never called (no generate event is in
the call trace). -/
theorem query_zero_matches {V S : Type} (P : Providers V S)
    (country question : String) (top_k : Option Nat) (v : V)
    (hc : (pyLower country) ∈ settingsCOUNTRIES)
    (hemb : P.embedQuery question = .ok v)
    (hsearch : P.search v (pyLower country) (effTopK top_k) = .ok []) :
    queryT P country question top_k =
      (.noMatches ("No relevant information found in " ++ pyTitle (pyLower country) ++
          " knowledge base.") (pyLower country) [],
       [.embed question, .search (pyLower country) (effTopK top_k)]) ∧
    (∀ q chs, CallEvent.generate q chs ∉ (queryT P country question top_k).2) := by
  have h1 : queryT P country question top_k =
      (.noMatches ("No relevant information found in " ++ pyTitle (pyLower country) ++
          " knowledge base.") (pyLower country) [],
       [.embed question, .search (pyLower country) (effTopK top_k)]) := by
    simp [queryT, hc, hemb, hsearch]
  refine ⟨h1, ?_⟩
  intro q chs hmem
  rw [h1] at hmem
  simp at hmem

theorem query_zero_matches_witness :
    queryT Pstub ("spain") ("hello") none =
      (QueryResult.noMatches ("No relevant information found in Spain knowledge base.")
          ("spain") [],
       [CallEvent.embed ("hello"), CallEvent.search ("spain") 5]) :=
  (query_zero_matches Pstub ("spain") ("hello") none () (by decide) rfl rfl).1

/-- Claim C4 as stated is false on the code: the zero-match short-circuit is
a non-error result but returns only `{answer, country, sources}`, without
`chunks_used` and `model`. Concretely, a supported-country query against a
store with zero matches yields a non-error result that lacks the full
five-field shape. -/
theorem query_result_shape_counterexample :
    (query Pstub ("spain") ("hello") none).isError = false ∧
    hasFullQueryShape (query Pstub ("spain") ("hello") none) = false := by
  decide

/-- Claim C4 (amended): every non-error result of `query` carries `answer`,
`country` and `sources`; the generate-path result carries all five fields
`{answer, country, sources, chunks_used, model}`, while the zero-match
short-circuit result omits `chunks_used` and `model`. -/
theorem query_result_shape {V S : Type} (P : Providers V S)
    (country question : String) (tk : Option Nat)
    (h : (query P country question tk).isError = false) :
    ((query P country question tk).answerField.isSome = true ∧
     (query P country question tk).countryField.isSome = true ∧
     (query P country question tk).sourcesField.isSome = true) ∧
    ((query P country question tk).isNoMatch = true →
       (query P country question tk).chunksUsedField = none ∧
       (query P country question tk).modelField = none) ∧
    ((query P country question tk).isNoMatch = false →
       hasFullQueryShape (query P country question tk) = true) := by
  generalize hq : query P country question tk = r at h ⊢
  cases r <;>
    simp_all [QueryResult.isError, QueryResult.answerField, QueryResult.countryField,
      QueryResult.sourcesField, QueryResult.chunksUsedField, QueryResult.modelField,
      QueryResult.isNoMatch, hasFullQueryShape]

theorem query_result_shape_witness :
    (((query Pstub ("spain") ("hello") none).answerField.isSome = true ∧
      (query Pstub ("spain") ("hello") none).countryField.isSome = true ∧
      (query Pstub ("spain") ("hello") none).sourcesField.isSome = true) ∧
     ((query Pstub ("spain") ("hello") none).isNoMatch = true →
        (query Pstub ("spain") ("hello") none).chunksUsedField = none ∧
        (query Pstub ("spain") ("hello") none).modelField = none) ∧
     ((query Pstub ("spain") ("hello") none).isNoMatch = false →
        hasFullQueryShape (query Pstub ("spain") ("hello") none) = true)) :=
  query_result_shape Pstub ("spain") ("hello") none (by decide)

/-- Every search event in one query trace carries the effective top-k. -/
theorem search_event_topk {V S : Type} (P : Providers V S) (c q : String)
    (tk : Option Nat) (ns : String) (k : Nat)
    (hmem : CallEvent.search ns k ∈ (queryT P c q tk).2) : k = effTopK tk := by
  unfold queryT at hmem
  by_cases hc : pyLower c ∈ settingsCOUNTRIES
  · simp only [if_pos hc] at hmem
    cases hemb : P.embedQuery q with
    | error e => simp only [hemb] at hmem; simp at hmem
    | ok v =>
      simp only [hemb] at hmem
      cases hs : P.search v (pyLower c) (effTopK tk) with
      | error e =>
        simp only [hs] at hmem
        simp at hmem
        exact hmem.2
      | ok ms =>
        simp only [hs] at hmem
        by_cases hne : ms.isEmpty = true
        · simp [hne] at hmem
          exact hmem.2
        · simp only [Bool.not_eq_true] at hne
          simp only [hne, Bool.false_eq_true, if_false] at hmem
          cases hg : P.generateWithContext q (ms.map (fun m => m.metadata.text))
              ((3 : Rat)/10) with
          | error e =>
            simp only [hg] at hmem
            simp at hmem
            exact hmem.2
          | ok r =>
            simp only [hg] at hmem
            simp at hmem
            exact hmem.2
  · simp [if_neg hc] at hmem

/-- Claim C10: when the caller passes `top_k = None` or the falsy `top_k = 0`,
`query` substitutes the configured default `TOP_K_RESULTS` before searching:
the run is identical to one called with the default, and every search call
in the trace asks for exactly `TOP_K_RESULTS` results, never zero. -/
theorem query_topk_defaulting {V S : Type} (P : Providers V S)
    (country question : String) (tk : Option Nat)
    (h : tk = none ∨ tk = some 0) :
    queryT P country question tk =
      queryT P country question (some settingsTOP_K_RESULTS) ∧
    (∀ ns k, CallEvent.search ns k ∈ (queryT P country question tk).2 →
      k = settingsTOP_K_RESULTS) := by
  have hk : effTopK tk = settingsTOP_K_RESULTS := by
    rcases h with h | h <;> subst h <;> rfl
  constructor
  · unfold queryT
    rw [hk]
    rfl
  · intro ns k hmem
    rw [search_event_topk P country question tk ns k hmem, hk]

theorem query_topk_defaulting_witness :
    queryT Pstub ("spain") ("hello") (some 0) =
      queryT Pstub ("spain") ("hello") (some settingsTOP_K_RESULTS) ∧
    CallEvent.search ("spain") 5 ∈ (queryT Pstub ("spain") ("hello") (some 0)).2 :=
  ⟨(query_topk_defaulting Pstub ("spain") ("hello") (some 0) (Or.inr rfl)).1,
   by decide⟩

/-- A concrete scenario-B request: `{country: "atlantis", question: "hi"}`. -/
def ev0 : LambdaEvent :=
  { action := none, country := some ("atlantis"), question := some ("hi"), top_k := none }

/-- Claim C5 as stated is false on the code: for an unsupported country the
handler wraps the invalid-country error body in a success response with
status 200 — not the client-error status 400 used for missing fields and
unknown actions, and not the server-error status 500. -/
theorem lambda_invalid_country_counterexample :
    lambda_handler Pstub ev0 =
      (200, LambdaBody.queryResult
        (QueryResult.invalidCountry invalidCountryMsg settingsCOUNTRIES)) ∧
    (lambda_handler Pstub ev0).1 ≠ 400 ∧ (lambda_handler Pstub ev0).1 ≠ 500 := by
  decide

/-- Claim C5 (amended): for an unsupported country the handler returns the
structured invalid-country error (with the supported-country list) in the
body, but under the success status 200; the client-error status 400 is
reserved for missing `country`/`question` and unknown actions. -/
theorem lambda_status_semantics {V S : Type} (P : Providers V S) (ev : LambdaEvent) :
    (ev.action.getD ("query") = "query" →
        (pyFalsy ev.country || pyFalsy ev.question) = true →
        lambda_handler P ev = (400, LambdaBody.missingFields)) ∧
    (ev.action.getD ("query") = "query" →
        (pyFalsy ev.country || pyFalsy ev.question) = false →
        pyLower (ev.country.getD ("")) ∉ settingsCOUNTRIES →
        lambda_handler P ev =
          (200, LambdaBody.queryResult
            (QueryResult.invalidCountry invalidCountryMsg settingsCOUNTRIES))) ∧
    (∀ a, ev.action = some a → a ≠ "stats" → a ≠ "list_countries" → a ≠ "query" →
        lambda_handler P ev = (400, LambdaBody.unknownAction a)) := by
  refine ⟨?_, ?_, ?_⟩
  · intro ha hf
    simp [lambda_handler, ha, hf]
  · intro ha hf hc
    simp [lambda_handler, ha, hf, query, queryT, hc]
  · intro a ha h1 h2 h3
    simp [lambda_handler, ha, h1, h2, h3]

theorem lambda_status_semantics_witness :
    lambda_handler Pstub ev0 =
      (200, LambdaBody.queryResult
        (QueryResult.invalidCountry invalidCountryMsg settingsCOUNTRIES)) ∧
    lambda_handler Pstub { ev0 with country := none } = (400, LambdaBody.missingFields) :=
  ⟨(lambda_status_semantics Pstub ev0).2.1 rfl (by decide) (by decide),
   (lambda_status_semantics Pstub { ev0 with country := none }).1 rfl (by decide)⟩

/-- A per-country processing oracle with realistic internal events: one
batch upsert followed by the 0.5 s rate-limit delay, no exception. -/
def proc0 : String → List BuildEvent × Option String :=
  fun c => ([.upsertBatch c 100, .sleep ((1 : Rat)/2)], none)

/-- Populated namespaces observed by the stats call in the C6 scenario. -/
def ns0 : List String := ["spain", "poland", "colombia"]

/-- Claim C6 as stated is false on the code: in a concrete full run the
event immediately before the stats fetch is the completion of the last
country, not a settling sleep — `IndexBuilder.run` calls `verify_indexing`
directly after the loop with no settling interval. The rest of the claim
holds there: stats are fetched exactly once and missing namespaces are
reported as a warning while the run still completes. -/
theorem run_no_settling_wait_counterexample :
    settlingWaitBeforeStats (IndexBuilder.run proc0 ns0 settingsCOUNTRIES) = false ∧
    (IndexBuilder.run proc0 ns0 settingsCOUNTRIES).countP isFetchStats = 1 ∧
    BuildEvent.warnMissing (["italy", "georgia"]) ∈
      IndexBuilder.run proc0 ns0 settingsCOUNTRIES ∧
    (IndexBuilder.run proc0 ns0 settingsCOUNTRIES).countP isSleepEvent = 5 := by
  decide

/-- Claim C6 (amended): after the last country is processed,
`IndexBuilder.run` immediately (with no settling wait of its own) fetches
store-wide stats exactly once; namespaces missing from the stats are
reported as a warning, after which the run still emits its elapsed-time
report (the warning is not a failure of the run). -/
theorem run_fetches_stats_once_post_loop
    (proc : String → List BuildEvent × Option String)
    (namespaces countries : List String)
    (h : ∀ c, ((proc c).1.countP isFetchStats) = 0) :
    (IndexBuilder.run proc namespaces countries).countP isFetchStats = 1 ∧
    IndexBuilder.run proc namespaces countries =
      loopTrace proc countries ++ BuildEvent.fetchStats ::
        ((if (missingNamespaces namespaces).isEmpty then [BuildEvent.allIndexed]
          else [BuildEvent.warnMissing (missingNamespaces namespaces)]) ++
         [BuildEvent.reportElapsed]) ∧
    ((missingNamespaces namespaces).isEmpty = false →
        BuildEvent.warnMissing (missingNamespaces namespaces) ∈
          IndexBuilder.run proc namespaces countries ∧
        (IndexBuilder.run proc namespaces countries).getLast? =
          some BuildEvent.reportElapsed) := by
  have hloop : ∀ cs : List String, (loopTrace proc cs).countP isFetchStats = 0 := by
    intro cs
    induction cs with
    | nil => rfl
    | cons d ds ih =>
      rw [loopTrace]
      cases hpd : (proc d).2 <;>
        simp [processOne, List.countP_append, List.countP_cons, isFetchStats, h d, ih, hpd]
  have hstruct : IndexBuilder.run proc namespaces countries =
      loopTrace proc countries ++ BuildEvent.fetchStats ::
        ((if (missingNamespaces namespaces).isEmpty then [BuildEvent.allIndexed]
          else [BuildEvent.warnMissing (missingNamespaces namespaces)]) ++
         [BuildEvent.reportElapsed]) := by
    unfold IndexBuilder.run verifyEvents
    simp
  refine ⟨?_, hstruct, ?_⟩
  · rw [hstruct, List.countP_append, hloop, List.countP_cons]
    by_cases hm : (missingNamespaces namespaces).isEmpty <;>
      simp [hm, List.countP_append, List.countP_cons, isFetchStats]
  · intro hm
    constructor
    · rw [hstruct, hm]
      simp
    · rw [hstruct]
      rw [show loopTrace proc countries ++ BuildEvent.fetchStats ::
          ((if (missingNamespaces namespaces).isEmpty then [BuildEvent.allIndexed]
            else [BuildEvent.warnMissing (missingNamespaces namespaces)]) ++
           [BuildEvent.reportElapsed]) =
          (loopTrace proc countries ++ BuildEvent.fetchStats ::
            (if (missingNamespaces namespaces).isEmpty then [BuildEvent.allIndexed]
             else [BuildEvent.warnMissing (missingNamespaces namespaces)])) ++
          [BuildEvent.reportElapsed] by simp]
      exact List.getLast?_concat _

theorem run_fetches_stats_once_post_loop_witness :
    (IndexBuilder.run proc0 ns0 settingsCOUNTRIES).countP isFetchStats = 1 ∧
    BuildEvent.warnMissing (missingNamespaces ns0) ∈
      IndexBuilder.run proc0 ns0 settingsCOUNTRIES ∧
    (IndexBuilder.run proc0 ns0 settingsCOUNTRIES).getLast? =
      some BuildEvent.reportElapsed :=
  ⟨(run_fetches_stats_once_post_loop proc0 ns0 settingsCOUNTRIES (fun _ => rfl)).1,
   ((run_fetches_stats_once_post_loop proc0 ns0 settingsCOUNTRIES (fun _ => rfl)).2.2
      (by decide)).1,
   ((run_fetches_stats_once_post_loop proc0 ns0 settingsCOUNTRIES (fun _ => rfl)).2.2
      (by decide)).2⟩

/-- Claim C7: for every country list, an exception raised while processing
one country is caught (logged as a `countryError` event) and the loop
continues: every country in the list still gets its processing attempt,
and the final verification (stats fetch) and elapsed-time report always
run, regardless of per-country failures. -/
theorem run_isolates_country_failures
    (proc : String → List BuildEvent × Option String)
    (namespaces countries : List String) :
    (∀ c, c ∈ countries →
        BuildEvent.countryStart c ∈ IndexBuilder.run proc namespaces countries) ∧
    (∀ c e, c ∈ countries → (proc c).2 = some e →
        BuildEvent.countryError c e ∈ IndexBuilder.run proc namespaces countries) ∧
    BuildEvent.fetchStats ∈ IndexBuilder.run proc namespaces countries ∧
    (IndexBuilder.run proc namespaces countries).getLast? =
      some BuildEvent.reportElapsed := by
  have hstart : ∀ (cs : List String) (c : String), c ∈ cs →
      BuildEvent.countryStart c ∈ loopTrace proc cs := by
    intro cs
    induction cs with
    | nil => intro c hcm; cases hcm
    | cons d ds ih =>
      intro c hcm
      rw [loopTrace]
      cases List.mem_cons.mp hcm with
      | inl heq =>
        subst heq
        exact List.mem_append_left _ (List.mem_cons_self _ _)
      | inr hmem => exact List.mem_append_right _ (ih c hmem)
  have herr : ∀ (cs : List String) (c : String) (e : String), c ∈ cs →
      (proc c).2 = some e → BuildEvent.countryError c e ∈ loopTrace proc cs := by
    intro cs
    induction cs with
    | nil => intro c e hcm; cases hcm
    | cons d ds ih =>
      intro c e hcm hpe
      rw [loopTrace]
      cases List.mem_cons.mp hcm with
      | inl heq =>
        subst heq
        apply List.mem_append_left
        apply List.mem_cons_of_mem
        apply List.mem_append_right
        rw [hpe]
        exact List.mem_cons_self _ _
      | inr hmem => exact List.mem_append_right _ (ih c e hmem hpe)
  refine ⟨?_, ?_, ?_, ?_⟩
  · intro c hcm
    exact List.mem_append_left _ (List.mem_append_left _ (hstart countries c hcm))
  · intro c e hcm hpe
    exact List.mem_append_left _ (List.mem_append_left _ (herr countries c e hcm hpe))
  · apply List.mem_append_left
    apply List.mem_append_right
    exact List.mem_cons_self _ _
  · exact List.getLast?_concat _

/-- A processing oracle that raises on one country only. -/
def procW : String → List BuildEvent × Option String :=
  fun c => ([], if c = "spain" then some ("boom") else none)

theorem run_isolates_country_failures_witness :
    BuildEvent.countryStart ("georgia") ∈ IndexBuilder.run procW [] settingsCOUNTRIES ∧
    BuildEvent.countryError ("spain") ("boom") ∈ IndexBuilder.run procW [] settingsCOUNTRIES ∧
    BuildEvent.fetchStats ∈ IndexBuilder.run procW [] settingsCOUNTRIES :=
  ⟨(run_isolates_country_failures procW [] settingsCOUNTRIES).1 ("georgia") (by decide),
   (run_isolates_country_failures procW [] settingsCOUNTRIES).2.1 ("spain") ("boom")
     (by decide) (by decide),
   (run_isolates_country_failures procW [] settingsCOUNTRIES).2.2.1⟩
